import Mathlib

/-!
# tone-bird: a shallow embedding of `src/bird.ts` and `src/utils.ts`

Numbers are modelled as rationals (exact arithmetic): `Math.floor` is
`Int.floor`, and the JavaScript remainder operator `%` (sign of the
dividend) is `jsRem`.  The `createBird` factory, its `updateNotes`
refresh, the configuration validator and the timer lifecycle are
transcribed below; the recurring-timer facility (`setInterval` /
`clearInterval`) is modelled by a step function in which a tick only
fires while the timer is active.
-/

namespace ToneBird

/-- JavaScript truncation toward zero (the rounding used by `%`). -/
def jsTrunc (q : ℚ) : ℤ := if 0 ≤ q then ⌊q⌋ else ⌈q⌉

/-- The JavaScript remainder `a % b`: `a - b * trunc (a / b)`, so the
result carries the sign of the dividend `a`. -/
def jsRem (a b : ℚ) : ℚ := a - b * (jsTrunc (a / b) : ℚ)

/-- ADSR envelope from `utils.ts` (all fields optional). -/
structure Envelope where
  attack : Option ℚ := none
  decay : Option ℚ := none
  sustain : Option ℚ := none
  release : Option ℚ := none
deriving DecidableEq, Repr

/-- A note of the loop, from `utils.ts` (`BirdNote`). -/
structure BirdNote where
  id : String
  start : ℚ
  duration : ℚ
  pitch : ℚ
  volume : Option ℚ := none
  pan : Option ℚ := none
  envelope : Option Envelope := none
deriving DecidableEq, Repr

/-- One concrete occurrence of a note, from `bird.ts`
(`BirdNoteInstance`); `startTime`/`endTime` are in milliseconds. -/
structure BirdNoteInstance where
  id : String
  note : BirdNote
  startTime : ℚ
  endTime : ℚ
deriving DecidableEq, Repr

/-- The configuration accepted by `createBird` (`BirdConfig` in
`bird.ts`); the injectable timer functions are supplied separately to
the session model below. -/
structure BirdConfig where
  bpm : ℚ
  notes : List BirdNote
  arrangement : Option (List Bool) := none
  updateInterval : Option ℚ := none
  lookaheadDistance : Option ℚ := none
  retentionTime : Option ℚ := none
deriving DecidableEq, Repr

/-- The snapshot published on the signal (`BirdState` in `bird.ts`). -/
structure BirdState where
  notes : List BirdNoteInstance
  currentTime : ℚ
  currentBeat : ℚ
  currentMeasure : ℤ
  beatInMeasure : ℤ
  loopIteration : ℤ
  isCurrentMeasureActive : Bool
  activeMeasures : List ℕ
  loopLengthSeconds : ℚ
  loopProgress : ℚ
  upcomingNotesCount : ℕ
  recentlyPlayedNotesCount : ℕ
  currentlyPlayingNotesCount : ℕ
deriving DecidableEq, Repr

/-- Function `getLoopLengthSeconds` from `utils.ts`: 16 measures × 4 beats × 60 / bpm. -/
def getLoopLengthSeconds (bpm : ℚ) : ℚ := 16 * 4 * 60 / bpm

/-- The JavaScript defaulting idiom `x || d` on an optional number:
`undefined` and the falsy number `0` both select the default. -/
def jsOrDefault (x : Option ℚ) (d : ℚ) : ℚ :=
  match x with
  | none => d
  | some v => if v = 0 then d else v

/-- Reads `config.arrangement?.[measure] ?? true` for a natural measure index. -/
def isMeasureActive (arr : Option (List Bool)) (measure : ℕ) : Bool :=
  match arr with
  | none => true
  | some a => a.getD measure true

/-- Reads `config.arrangement?.[i] ?? true` where the index is the possibly
negative integer `Math.floor((currentBeat % 64) / 4)`; a negative index
reads `undefined`, so the `?? true` default applies. -/
def isMeasureActiveAt (arr : Option (List Bool)) (i : ℤ) : Bool :=
  match arr with
  | none => true
  | some a => if i < 0 then true else a.getD i.toNat true

/-- Seconds per beat, `1 / (bpm / 60)`. -/
def secondsPerBeat (bpm : ℚ) : ℚ := 1 / (bpm / 60)

/-- Computes `Math.floor(currentTime / loopLength)` — the loop iteration that
contains `now`. -/
def currentLoopIteration (bpm now : ℚ) : ℤ := ⌊now / getLoopLengthSeconds bpm⌋

/-- Computes `currentTime % loopLength` (JavaScript remainder). -/
def currentLoopTime (bpm now : ℚ) : ℚ := jsRem now (getLoopLengthSeconds bpm)

/-- The effective lookahead distance, `config.lookaheadDistance || 2.0`. -/
def effLookahead (cfg : BirdConfig) : ℚ := jsOrDefault cfg.lookaheadDistance 2

/-- The effective retention time, `config.retentionTime || 0.5`. -/
def effRetention (cfg : BirdConfig) : ℚ := jsOrDefault cfg.retentionTime (1 / 2)

/-- Local `loopsToCheck`: scan the next loop iteration too when the lookahead
window extends past the end of the current loop. -/
def loopsToCheck (bpm lookahead now : ℚ) : ℕ :=
  if getLoopLengthSeconds bpm < currentLoopTime bpm now + lookahead
  then 2 else 1

/-- Local `noteStartTimeGlobal` for the occurrence of `n` in measure
`measure` of loop iteration `iter` (seconds). -/
def occStart (bpm : ℚ) (iter : ℤ) (measure : ℕ) (n : BirdNote) : ℚ :=
  (iter : ℚ) * getLoopLengthSeconds bpm
    + (measure : ℚ) * 4 * secondsPerBeat bpm
    + n.start * secondsPerBeat bpm

/-- Local `noteEndTimeGlobal` for the same occurrence (seconds). -/
def occEnd (bpm : ℚ) (iter : ℤ) (measure : ℕ) (n : BirdNote) : ℚ :=
  occStart bpm iter measure n + n.duration * secondsPerBeat bpm

/-- Predicate `noteIsCurrentlyPlaying`: `currentTime ≥ s && currentTime < e`. -/
def isCurrentlyPlaying (now s e : ℚ) : Bool := s ≤ now && now < e

/-- Predicate `noteWillPlaySoon`: `s ≥ currentTime && s < currentTime + lookahead`. -/
def willPlaySoon (now lookaheadEnd s : ℚ) : Bool := now ≤ s && s < lookaheadEnd

/-- Predicate `noteRecentlyPlayed`: `e ≥ currentTime - retention && e ≤ currentTime`. -/
def wasRecentlyPlayed (retentionStart now e : ℚ) : Bool :=
  retentionStart ≤ e && e ≤ now

/-- Whether the occurrence of `n` in measure `measure` of iteration
`iter` qualifies for the unified list at time `now`. -/
def occQualifies (bpm lookahead retention now : ℚ) (iter : ℤ) (measure : ℕ)
    (n : BirdNote) : Bool :=
  isCurrentlyPlaying now (occStart bpm iter measure n) (occEnd bpm iter measure n)
    || willPlaySoon now (now + lookahead) (occStart bpm iter measure n)
    || wasRecentlyPlayed (now - retention) now (occEnd bpm iter measure n)

/-- The instance record pushed onto `notes` (times converted to ms). -/
def mkInstance (bpm : ℚ) (iter : ℤ) (measure : ℕ) (n : BirdNote) : BirdNoteInstance :=
  { id := n.id
    note := n
    startTime := occStart bpm iter measure n * 1000
    endTime := occEnd bpm iter measure n * 1000 }

/-- The instances contributed by one measure of one scanned loop
iteration, in input note order; an inactive measure contributes none. -/
def measureInstances (bpm : ℚ) (notes : List BirdNote) (arr : Option (List Bool))
    (lookahead retention now : ℚ) (iter : ℤ) (measure : ℕ) :
    List BirdNoteInstance :=
  if isMeasureActive arr measure then
    notes.filterMap (fun n =>
      if occQualifies bpm lookahead retention now iter measure n
      then some (mkInstance bpm iter measure n) else none)
  else []

/-- The unified instance list in generation order (loop offset, then
measure, then input note order), before sorting. -/
def generatedInstances (bpm : ℚ) (notes : List BirdNote) (arr : Option (List Bool))
    (lookahead retention now : ℚ) : List BirdNoteInstance :=
  (List.range (loopsToCheck bpm lookahead now)).flatMap (fun o =>
    (List.range 16).flatMap (fun measure =>
      measureInstances bpm notes arr lookahead retention now
        (currentLoopIteration bpm now + o) measure))

/-- All `(offset, measure, note)` combinations whose predicates the scan
evaluates (the counters count over these, active measures only). -/
def scannedCombos (bpm : ℚ) (notes : List BirdNote) (arr : Option (List Bool))
    (lookahead now : ℚ) : List (ℕ × ℕ × BirdNote) :=
  (List.range (loopsToCheck bpm lookahead now)).flatMap (fun o =>
    (List.range 16).flatMap (fun measure =>
      if isMeasureActive arr measure then
        notes.map (fun n => (o, measure, n))
      else []))

/-- Stable insertion placing `x` before the first element whose
`startTime` is not smaller — the unique stable ascending order of the
comparator `(a, b) => a.startTime - b.startTime`. -/
def insertByStart (x : BirdNoteInstance) : List BirdNoteInstance → List BirdNoteInstance
  | [] => [x]
  | y :: ys => if x.startTime ≤ y.startTime then x :: y :: ys else y :: insertByStart x ys

/-- Stable sort by `startTime` ascending, modelling
`notes.sort((a, b) => a.startTime - b.startTime)`. -/
def sortByStart : List BirdNoteInstance → List BirdNoteInstance
  | [] => []
  | x :: xs => insertByStart x (sortByStart xs)

/-- The body of `updateNotes` after its local constants are fixed: the
pure resolver `resolve(now, bpm, notes, arrangement, lookahead,
retention) → Snapshot`, where `lookahead` and `retention` are the
already defaulted values. -/
def resolveState (bpm : ℚ) (notes : List BirdNote) (arr : Option (List Bool))
    (lookahead retention now : ℚ) : BirdState :=
  let loopLength := getLoopLengthSeconds bpm
  let beatsPerSecond := bpm / 60
  let currentBeat := now * beatsPerSecond
  let currentMeasure : ℤ := ⌊jsRem currentBeat 64 / 4⌋
  let combos := scannedCombos bpm notes arr lookahead now
  { notes := sortByStart (generatedInstances bpm notes arr lookahead retention now)
    currentTime := now
    currentBeat := jsRem currentBeat 64
    currentMeasure := currentMeasure
    beatInMeasure := ⌊jsRem (jsRem currentBeat 64) 4⌋
    loopIteration := currentLoopIteration bpm now
    isCurrentMeasureActive := isMeasureActiveAt arr currentMeasure
    activeMeasures := (List.range 16).filter (fun i => isMeasureActive arr i)
    loopLengthSeconds := loopLength
    loopProgress := currentLoopTime bpm now / loopLength
    upcomingNotesCount := combos.countP (fun c =>
      willPlaySoon now (now + lookahead)
        (occStart bpm (currentLoopIteration bpm now + c.1) c.2.1 c.2.2))
    recentlyPlayedNotesCount := combos.countP (fun c =>
      wasRecentlyPlayed (now - retention) now
        (occEnd bpm (currentLoopIteration bpm now + c.1) c.2.1 c.2.2))
    currentlyPlayingNotesCount := combos.countP (fun c =>
      isCurrentlyPlaying now
        (occStart bpm (currentLoopIteration bpm now + c.1) c.2.1 c.2.2)
        (occEnd bpm (currentLoopIteration bpm now + c.1) c.2.1 c.2.2)) }

/-- One refresh of `updateNotes` in `bird.ts`: the full snapshot written
to the signal, as a function of the configuration and the clock value
read at the top of the refresh. -/
def computeBirdState (cfg : BirdConfig) (now : ℚ) : BirdState :=
  resolveState cfg.bpm cfg.notes cfg.arrangement
    (effLookahead cfg) (effRetention cfg) now

/-- The per-note checks of `validateBirdConfig`, in source order, for
the note at index `i`; `some msg` is the thrown error message. -/
def validateNote (i : ℕ) (n : BirdNote) : Option String :=
  if n.id = "" then
    some ("Note " ++ toString i ++ ": id must be a non-empty string")
  else if n.start < 0 then
    some ("Note " ++ toString i ++ ": start must be a non-negative number")
  else if n.duration < 1 / 1000 then
    some ("Note " ++ toString i ++ ": duration must be at least 0.001")
  else if n.pitch ≤ 0 then
    some ("Note " ++ toString i ++ ": pitch must be a positive number")
  else if (match n.volume with | some v => v < 0 || 1 < v | none => false) then
    some ("Note " ++ toString i ++ ": volume must be between 0 and 1")
  else if (match n.pan with | some p => p < -1 || 1 < p | none => false) then
    some ("Note " ++ toString i ++ ": pan must be between -1 and 1")
  else
    match n.envelope with
    | none => none
    | some env =>
      if (match env.attack with | some a => decide (a < 0) | none => false) then
        some ("Note " ++ toString i ++ ": envelope attack must be non-negative")
      else if (match env.decay with | some d => decide (d < 0) | none => false) then
        some ("Note " ++ toString i ++ ": envelope decay must be non-negative")
      else if (match env.sustain with | some s => s < 0 || 1 < s | none => false) then
        some ("Note " ++ toString i ++ ": envelope sustain must be between 0 and 1")
      else if (match env.release with | some r => decide (r < 0) | none => false) then
        some ("Note " ++ toString i ++ ": envelope release must be non-negative")
      else none

/-- The note loop of `validateBirdConfig`: first error, in index order. -/
def validateNotesFrom (i : ℕ) : List BirdNote → Option String
  | [] => none
  | n :: rest =>
    match validateNote i n with
    | some e => some e
    | none => validateNotesFrom (i + 1) rest

/-- Function `validateBirdConfig` from `bird.ts`: `some msg` is the message of
the error thrown at the first violation, `none` means the configuration
is accepted.  The `typeof` checks of the source are vacuous on this
typed model, and the timer-function checks only reject non-functions. -/
def validateBirdConfig (cfg : BirdConfig) : Option String :=
  if cfg.bpm ≤ 0 then some "BPM must be a positive number"
  else match validateNotesFrom 0 cfg.notes with
  | some e => some e
  | none =>
    match cfg.arrangement with
    | some a =>
      if a.length ≠ 16 then
        some "Arrangement must have exactly 16 elements (one per measure)"
      else validateTail cfg
    | none => validateTail cfg
where
  /-- The trailing scalar-option checks, in source order. -/
  validateTail (cfg : BirdConfig) : Option String :=
    if (match cfg.lookaheadDistance with | some l => decide (l ≤ 0) | none => false) then
      some "Lookahead distance must be a positive number"
    else if (match cfg.updateInterval with | some u => decide (u ≤ 0) | none => false) then
      some "Update interval must be a positive number"
    else if (match cfg.retentionTime with | some r => decide (r < 0) | none => false) then
      some "Retention time must be a non-negative number"
    else none

/-- The initial value the signal is created with in `createBird`,
before the first `updateNotes` call. -/
def initialBirdState (cfg : BirdConfig) : BirdState :=
  { notes := []
    currentTime := 0
    currentBeat := 0
    currentMeasure := 0
    beatInMeasure := 0
    loopIteration := 0
    isCurrentMeasureActive := true
    activeMeasures := []
    loopLengthSeconds := getLoopLengthSeconds cfg.bpm
    loopProgress := 0
    upcomingNotesCount := 0
    recentlyPlayedNotesCount := 0
    currentlyPlayingNotesCount := 0 }

/-- A live session: the observable cell's current value and whether the
recurring interval timer is still registered. -/
structure BirdSession where
  cell : BirdState
  timerActive : Bool
deriving DecidableEq, Repr

/-- The externally observable effects `createBird` performs, in order. -/
inductive BirdEffect where
  | signalCreated (initial : BirdState)
  | timerScheduled (intervalMs : ℚ)
  | cellWritten (st : BirdState)
deriving DecidableEq, Repr

/-- Factory `createBird`: validate first; on failure throw (no effect has
happened).  On success: create the signal, schedule the interval timer
(`config.updateInterval || 50`), and run `updateNotes` once immediately
at the injected clock's current value `now0`.  Returns the effect trace
together with the thrown error or the constructed session. -/
def createBird (cfg : BirdConfig) (now0 : ℚ) :
    List BirdEffect × Except String BirdSession :=
  match validateBirdConfig cfg with
  | some e => ([], Except.error e)
  | none =>
    let st := computeBirdState cfg now0
    ([BirdEffect.signalCreated (initialBirdState cfg),
      BirdEffect.timerScheduled (jsOrDefault cfg.updateInterval 50),
      BirdEffect.cellWritten st],
     Except.ok { cell := st, timerActive := true })

/-- Events a session can experience: an interval-timer tick at a clock
value, or a call to `dispose` (which runs `clearInterval`). -/
inductive SessionEvent where
  | tick (now : ℚ)
  | disposeCall
deriving DecidableEq, Repr

/-- One event step.  A tick runs `updateNotes` and writes the cell only
while the interval timer is registered — a cancelled timer never fires
again (the `clearInterval` contract); `dispose` cancels the timer and
touches nothing else. -/
def stepSession (cfg : BirdConfig) (s : BirdSession) : SessionEvent → BirdSession
  | SessionEvent.tick t =>
    if s.timerActive then { cell := computeBirdState cfg t, timerActive := true } else s
  | SessionEvent.disposeCall => { s with timerActive := false }

/-- Run a sequence of events from a session state. -/
def runSession (cfg : BirdConfig) (s : BirdSession) (evs : List SessionEvent) :
    BirdSession :=
  evs.foldl (stepSession cfg) s

/-- The loop iterations visited by the scan, in scan order. -/
def scannedIterations (bpm lookahead now : ℚ) : List ℤ :=
  (List.range (loopsToCheck bpm lookahead now)).map
    (fun o : ℕ => currentLoopIteration bpm now + (o : ℤ))

/-- Mathematical floor-based modulus (always in `[0, b)` for `b > 0`),
the reading of `mod` under which the spec's asserted ranges hold. -/
def ratMod (a b : ℚ) : ℚ := a - b * (⌊a / b⌋ : ℚ)

/-- Modelled from the spec's beat-to-measure formula, for comparison
with the code: `measure = floor(beat / 4) mod 16` where
`beat = (now × bpm/60) mod 64`. -/
def specCurrentMeasure (bpm now : ℚ) : ℤ := ⌊ratMod (now * (bpm / 60)) 64 / 4⌋ % 16

/-- Modelled from the spec's formula `beatInMeasure = beat mod 4` (the
fractional beat position within the measure, in `[0, 4)`). -/
def specBeatInMeasure (bpm now : ℚ) : ℚ := ratMod (ratMod (now * (bpm / 60)) 64) 4

/-- A small valid configuration: one note of half a beat at 440 Hz. -/
def demoNote : BirdNote := { id := "a", start := 0, duration := 1 / 2, pitch := 440 }

/-- Valid configuration used by concrete counterexamples and witnesses. -/
def demoConfig : BirdConfig := { bpm := 120, notes := [demoNote] }

/-- First note of the tie-break scenario: starts at beat 0 of its measure. -/
def tieNoteB : BirdNote := { id := "b", start := 0, duration := 1, pitch := 440 }

/-- Second note of the tie-break scenario: its start beat 4 crosses into
the following measure, so its occurrence in measure `m` coincides in
time with `tieNoteB`'s occurrence in measure `m + 1`. -/
def tieNoteA : BirdNote := { id := "a", start := 4, duration := 1, pitch := 550 }

/-- Valid configuration whose resolved list has equal start times for
instances of notes listed in the opposite input order. -/
def tieConfig : BirdConfig :=
  { bpm := 60, notes := [tieNoteB, tieNoteA], lookaheadDistance := some 10 }

/-- Valid empty configuration used with a negative clock value. -/
def negClockConfig : BirdConfig := { bpm := 60, notes := [] }

/-- An invalid configuration (bpm 0). -/
def badBpmConfig : BirdConfig := { bpm := 0, notes := [] }

/-- The literal invalid configuration with an empty note id. -/
def emptyIdConfig : BirdConfig :=
  { bpm := 120, notes := [{ id := "", start := 0, duration := 1 / 2, pitch := 440 }] }

/-- The literal invalid configuration whose arrangement has 2 elements. -/
def shortArrangementConfig : BirdConfig :=
  { bpm := 120, notes := [], arrangement := some [true, false] }

/-- The demo configuration with retention explicitly set to `0`. -/
def retentionZeroConfig : BirdConfig := { demoConfig with retentionTime := some 0 }

/-! ## Basic facts about the JavaScript numeric operators -/

theorem jsRem_eq_fract {a b : ℚ} (ha : 0 ≤ a) (hb : 0 < b) :
    jsRem a b = b * Int.fract (a / b) := by
  have hq : 0 ≤ a / b := div_nonneg ha hb.le
  rw [jsRem, jsTrunc, if_pos hq, Int.fract]
  field_simp

theorem jsRem_nonneg {a b : ℚ} (ha : 0 ≤ a) (hb : 0 < b) : 0 ≤ jsRem a b := by
  rw [jsRem_eq_fract ha hb]
  exact mul_nonneg hb.le (Int.fract_nonneg _)

theorem jsRem_lt {a b : ℚ} (ha : 0 ≤ a) (hb : 0 < b) : jsRem a b < b := by
  rw [jsRem_eq_fract ha hb]
  calc b * Int.fract (a / b) < b * 1 :=
        mul_lt_mul_of_pos_left (Int.fract_lt_one _) hb
    _ = b := mul_one b

theorem jsRem_eq_ratMod {a b : ℚ} (hab : 0 ≤ a / b) : jsRem a b = ratMod a b := by
  rw [jsRem, jsTrunc, if_pos hab, ratMod]

/-! ## The stable sort -/

theorem insertByStart_perm (x : BirdNoteInstance) (l : List BirdNoteInstance) :
    List.Perm (insertByStart x l) (x :: l) := by
  induction l with
  | nil => exact List.Perm.refl _
  | cons y ys ih =>
    rw [insertByStart]
    by_cases h : x.startTime ≤ y.startTime
    · rw [if_pos h]
    · rw [if_neg h]
      exact (List.Perm.cons y ih).trans (List.Perm.swap x y ys)

theorem sortByStart_perm (l : List BirdNoteInstance) : List.Perm (sortByStart l) l := by
  induction l with
  | nil => exact List.Perm.refl _
  | cons x xs ih =>
    rw [sortByStart]
    exact (insertByStart_perm x (sortByStart xs)).trans (List.Perm.cons x ih)

theorem mem_sortByStart {x : BirdNoteInstance} {l : List BirdNoteInstance} :
    x ∈ sortByStart l ↔ x ∈ l :=
  (sortByStart_perm l).mem_iff

theorem sorted_insertByStart {x : BirdNoteInstance} {l : List BirdNoteInstance}
    (hl : l.Pairwise (fun a b => a.startTime ≤ b.startTime)) :
    (insertByStart x l).Pairwise (fun a b => a.startTime ≤ b.startTime) := by
  induction l with
  | nil => simp [insertByStart]
  | cons y ys ih =>
    rcases List.pairwise_cons.mp hl with ⟨hy, hys⟩
    rw [insertByStart]
    by_cases h : x.startTime ≤ y.startTime
    · rw [if_pos h]
      refine List.pairwise_cons.mpr ⟨?_, hl⟩
      intro b hb
      rcases List.mem_cons.mp hb with rfl | hb
      · exact h
      · exact h.trans (hy b hb)
    · rw [if_neg h]
      refine List.pairwise_cons.mpr ⟨?_, ih hys⟩
      intro b hb
      rcases List.mem_cons.mp ((insertByStart_perm x ys).mem_iff.mp hb) with rfl | hb
      · exact (not_le.mp h).le
      · exact hy b hb

theorem sorted_sortByStart (l : List BirdNoteInstance) :
    (sortByStart l).Pairwise (fun a b => a.startTime ≤ b.startTime) := by
  induction l with
  | nil => simp [sortByStart]
  | cons x xs ih =>
    rw [sortByStart]
    exact sorted_insertByStart ih

theorem filter_insertByStart (x : BirdNoteInstance) (l : List BirdNoteInstance) (t : ℚ) :
    (insertByStart x l).filter (fun a => decide (a.startTime = t)) =
      (x :: l).filter (fun a => decide (a.startTime = t)) := by
  induction l with
  | nil => rfl
  | cons y ys ih =>
    rw [insertByStart]
    by_cases h : x.startTime ≤ y.startTime
    · rw [if_pos h]
    · rw [if_neg h]
      by_cases hx : x.startTime = t
      · have hy : ¬ y.startTime = t := by
          intro hy
          exact h (le_of_eq (hx.trans hy.symm))
        simp [List.filter_cons, hx, hy, ih]
      · by_cases hy : y.startTime = t
        · simp [List.filter_cons, hx, hy, ih]
        · simp [List.filter_cons, hx, hy, ih]

theorem filter_sortByStart (l : List BirdNoteInstance) (t : ℚ) :
    (sortByStart l).filter (fun a => decide (a.startTime = t)) =
      l.filter (fun a => decide (a.startTime = t)) := by
  induction l with
  | nil => rfl
  | cons x xs ih =>
    rw [sortByStart, filter_insertByStart]
    simp only [List.filter_cons, ih]

/-! ## Projections of the snapshot -/

theorem resolveState_notes (bpm : ℚ) (notes : List BirdNote) (arr : Option (List Bool))
    (lookahead retention now : ℚ) :
    (resolveState bpm notes arr lookahead retention now).notes
      = sortByStart (generatedInstances bpm notes arr lookahead retention now) := rfl

theorem resolveState_currentBeat (bpm : ℚ) (notes : List BirdNote)
    (arr : Option (List Bool)) (lookahead retention now : ℚ) :
    (resolveState bpm notes arr lookahead retention now).currentBeat
      = jsRem (now * (bpm / 60)) 64 := rfl

theorem resolveState_currentMeasure (bpm : ℚ) (notes : List BirdNote)
    (arr : Option (List Bool)) (lookahead retention now : ℚ) :
    (resolveState bpm notes arr lookahead retention now).currentMeasure
      = ⌊jsRem (now * (bpm / 60)) 64 / 4⌋ := rfl

theorem resolveState_beatInMeasure (bpm : ℚ) (notes : List BirdNote)
    (arr : Option (List Bool)) (lookahead retention now : ℚ) :
    (resolveState bpm notes arr lookahead retention now).beatInMeasure
      = ⌊jsRem (jsRem (now * (bpm / 60)) 64) 4⌋ := rfl

theorem computeBirdState_notes (cfg : BirdConfig) (now : ℚ) :
    (computeBirdState cfg now).notes
      = sortByStart (generatedInstances cfg.bpm cfg.notes cfg.arrangement
          (effLookahead cfg) (effRetention cfg) now) := rfl

/-! ## Occurrence-start arithmetic -/

theorem secondsPerBeat_pos {bpm : ℚ} (hbpm : 0 < bpm) : 0 < secondsPerBeat bpm := by
  rw [secondsPerBeat]
  positivity

theorem occStart_formula {bpm : ℚ} (hbpm : bpm ≠ 0) (iter : ℤ) (measure : ℕ)
    (n : BirdNote) :
    occStart bpm iter measure n
      = secondsPerBeat bpm * (64 * (iter : ℚ) + 4 * (measure : ℚ) + n.start) := by
  rw [occStart, getLoopLengthSeconds, secondsPerBeat]
  field_simp
  ring

theorem occStart_inj {bpm : ℚ} (hbpm : 0 < bpm) {i i' : ℤ} {m m' : ℕ}
    (hm : m < 16) (hm' : m' < 16) {n : BirdNote}
    (h : occStart bpm i m n = occStart bpm i' m' n) : i = i' ∧ m = m' := by
  rw [occStart_formula hbpm.ne', occStart_formula hbpm.ne'] at h
  have hs : (0 : ℚ) < secondsPerBeat bpm := secondsPerBeat_pos hbpm
  have h2 : 64 * (i : ℚ) + 4 * (m : ℚ) + n.start
      = 64 * (i' : ℚ) + 4 * (m' : ℚ) + n.start := mul_left_cancel₀ hs.ne' h
  have h3 : 64 * i + 4 * (m : ℤ) = 64 * i' + 4 * (m' : ℤ) := by
    have : (64 * i + 4 * (m : ℤ) : ℚ) = (64 * i' + 4 * (m' : ℤ) : ℚ) := by
      push_cast
      linarith
    exact_mod_cast this
  have hmz : (m : ℤ) < 16 := by exact_mod_cast hm
  have hmz' : (m' : ℤ) < 16 := by exact_mod_cast hm'
  have hm0 : (0 : ℤ) ≤ (m : ℤ) := Int.ofNat_nonneg m
  have hm0' : (0 : ℤ) ≤ (m' : ℤ) := Int.ofNat_nonneg m'
  constructor
  · omega
  · have : (m : ℤ) = (m' : ℤ) := by omega
    exact_mod_cast this

/-! ## Membership in the generated list -/

theorem loopsToCheck_le_two (bpm lookahead now : ℚ) :
    loopsToCheck bpm lookahead now ≤ 2 := by
  rw [loopsToCheck]
  split <;> omega

theorem mem_measureInstances {bpm : ℚ} {notes : List BirdNote}
    {arr : Option (List Bool)} {lookahead retention now : ℚ} {iter : ℤ}
    {measure : ℕ} {inst : BirdNoteInstance} :
    inst ∈ measureInstances bpm notes arr lookahead retention now iter measure ↔
      isMeasureActive arr measure = true ∧
        ∃ n ∈ notes, occQualifies bpm lookahead retention now iter measure n = true ∧
          inst = mkInstance bpm iter measure n := by
  rw [measureInstances]
  by_cases hact : isMeasureActive arr measure
  · rw [if_pos hact]
    simp only [hact, true_and, List.mem_filterMap]
    constructor
    · rintro ⟨n, hn, hf⟩
      by_cases hq : occQualifies bpm lookahead retention now iter measure n
      · rw [if_pos hq] at hf
        exact ⟨n, hn, hq, (Option.some_inj.mp hf).symm⟩
      · rw [if_neg hq] at hf
        exact absurd hf (Option.noConfusion)
    · rintro ⟨n, hn, hq, rfl⟩
      exact ⟨n, hn, by rw [if_pos hq]⟩
  · rw [if_neg hact]
    simp [hact]

theorem mem_generatedInstances {bpm : ℚ} {notes : List BirdNote}
    {arr : Option (List Bool)} {lookahead retention now : ℚ}
    {inst : BirdNoteInstance} :
    inst ∈ generatedInstances bpm notes arr lookahead retention now ↔
      ∃ o < loopsToCheck bpm lookahead now, ∃ measure < 16,
        inst ∈ measureInstances bpm notes arr lookahead retention now
          (currentLoopIteration bpm now + o) measure := by
  simp [generatedInstances, List.mem_flatMap, List.mem_range]

theorem mem_ite_occ_some {bpm lookahead retention now : ℚ} {iter : ℤ} {measure : ℕ}
    {a : BirdNote} {b : BirdNoteInstance}
    (hb : b ∈ (if occQualifies bpm lookahead retention now iter measure a
      then some (mkInstance bpm iter measure a) else none)) :
    b = mkInstance bpm iter measure a := by
  by_cases hq : occQualifies bpm lookahead retention now iter measure a
  · rw [if_pos hq] at hb
    exact (Option.some_inj.mp (Option.mem_def.mp hb)).symm
  · rw [if_neg hq] at hb
    exact absurd hb (Option.not_mem_none b)

theorem measureInstances_nodup {bpm : ℚ} {notes : List BirdNote}
    {arr : Option (List Bool)} {lookahead retention now : ℚ} {iter : ℤ}
    {measure : ℕ} (hn : notes.Nodup) :
    (measureInstances bpm notes arr lookahead retention now iter measure).Nodup := by
  rw [measureInstances]
  split
  · refine List.Nodup.filterMap ?_ hn
    intro a a' b hb hb'
    have ha : b = mkInstance bpm iter measure a := mem_ite_occ_some hb
    have ha' : b = mkInstance bpm iter measure a' := mem_ite_occ_some hb'
    have : (mkInstance bpm iter measure a).note = (mkInstance bpm iter measure a').note := by
      rw [← ha, ← ha']
    exact this
  · exact List.nodup_nil

theorem startTime_mkInstance_inj {bpm : ℚ} (hbpm : 0 < bpm) {i i' : ℤ}
    {m m' : ℕ} (hm : m < 16) (hm' : m' < 16) {n₁ n₂ : BirdNote}
    (heq : mkInstance bpm i m n₁ = mkInstance bpm i' m' n₂) :
    n₁ = n₂ ∧ i = i' ∧ m = m' := by
  have hnote : n₁ = n₂ := congrArg BirdNoteInstance.note heq
  subst hnote
  have hms : occStart bpm i m n₁ * 1000 = occStart bpm i' m' n₁ * 1000 :=
    congrArg BirdNoteInstance.startTime heq
  have hs : occStart bpm i m n₁ = occStart bpm i' m' n₁ :=
    mul_right_cancel₀ (by norm_num : (1000 : ℚ) ≠ 0) hms
  exact ⟨rfl, occStart_inj hbpm hm hm' hs⟩

theorem nodup_generatedInstances {bpm : ℚ} (hbpm : 0 < bpm)
    {notes : List BirdNote} {arr : Option (List Bool)}
    {lookahead retention now : ℚ} (hn : notes.Nodup) :
    (generatedInstances bpm notes arr lookahead retention now).Nodup := by
  rw [generatedInstances, List.nodup_flatMap]
  constructor
  · intro o ho
    rw [List.nodup_flatMap]
    constructor
    · intro m hm
      exact measureInstances_nodup hn
    · refine List.Pairwise.imp_of_mem ?_ (List.nodup_range 16)
      intro m m' hmem hmem' hne x hx hx'
      rcases mem_measureInstances.mp hx with ⟨_, n₁, hn₁, hq₁, rfl⟩
      rcases mem_measureInstances.mp hx' with ⟨_, n₂, hn₂, hq₂, heq⟩
      exact hne (startTime_mkInstance_inj hbpm (List.mem_range.mp hmem)
        (List.mem_range.mp hmem') heq).2.2
  · refine List.Pairwise.imp_of_mem ?_ (List.nodup_range (loopsToCheck bpm lookahead now))
    intro o o' ho ho' hne x hx hx'
    simp only [List.mem_flatMap, List.mem_range] at hx hx'
    rcases hx with ⟨m, hm, hxm⟩
    rcases hx' with ⟨m', hm', hxm'⟩
    rcases mem_measureInstances.mp hxm with ⟨_, n₁, hn₁, hq₁, rfl⟩
    rcases mem_measureInstances.mp hxm' with ⟨_, n₂, hn₂, hq₂, heq⟩
    have hio := (startTime_mkInstance_inj hbpm hm hm' heq).2.1
    have : (o : ℤ) = (o' : ℤ) := by omega
    exact hne (by exact_mod_cast this)

/-! ## The claims -/

/-- C1: for a validated configuration and any clock value, the unified
instance list contains the occurrence of note `n` for scanned loop
offset `o` and measure `measure` — with `occStart = loopIterationStart +
measure·4·secondsPerBeat + note.start·secondsPerBeat` and `occEnd =
occStart + duration·secondsPerBeat` — exactly when the measure is
active and the occurrence is currently playing, upcoming within the
lookahead, or recently played within retention; and (for pairwise
distinct notes) such an occurrence is never emitted twice. -/
theorem c1_unified_list (cfg : BirdConfig) (now : ℚ) (hbpm : 0 < cfg.bpm)
    (o measure : ℕ) (ho : o < loopsToCheck cfg.bpm (effLookahead cfg) now)
    (hm : measure < 16) (n : BirdNote) (hn : n ∈ cfg.notes) :
    (mkInstance cfg.bpm (currentLoopIteration cfg.bpm now + o) measure n
        ∈ (computeBirdState cfg now).notes ↔
      (isMeasureActive cfg.arrangement measure = true ∧
        ((occStart cfg.bpm (currentLoopIteration cfg.bpm now + o) measure n ≤ now ∧
            now < occEnd cfg.bpm (currentLoopIteration cfg.bpm now + o) measure n) ∨
          (now ≤ occStart cfg.bpm (currentLoopIteration cfg.bpm now + o) measure n ∧
            occStart cfg.bpm (currentLoopIteration cfg.bpm now + o) measure n
              < now + effLookahead cfg) ∨
          (now - effRetention cfg
              ≤ occEnd cfg.bpm (currentLoopIteration cfg.bpm now + o) measure n ∧
            occEnd cfg.bpm (currentLoopIteration cfg.bpm now + o) measure n ≤ now)))) ∧
    (cfg.notes.Nodup →
      (computeBirdState cfg now).notes.count
        (mkInstance cfg.bpm (currentLoopIteration cfg.bpm now + o) measure n) ≤ 1) := by
  have hq_iff : occQualifies cfg.bpm (effLookahead cfg) (effRetention cfg) now
      (currentLoopIteration cfg.bpm now + o) measure n = true ↔
      ((occStart cfg.bpm (currentLoopIteration cfg.bpm now + o) measure n ≤ now ∧
          now < occEnd cfg.bpm (currentLoopIteration cfg.bpm now + o) measure n) ∨
        (now ≤ occStart cfg.bpm (currentLoopIteration cfg.bpm now + o) measure n ∧
          occStart cfg.bpm (currentLoopIteration cfg.bpm now + o) measure n
            < now + effLookahead cfg) ∨
        (now - effRetention cfg
            ≤ occEnd cfg.bpm (currentLoopIteration cfg.bpm now + o) measure n ∧
          occEnd cfg.bpm (currentLoopIteration cfg.bpm now + o) measure n ≤ now)) := by
    simp [occQualifies, isCurrentlyPlaying, willPlaySoon, wasRecentlyPlayed,
      Bool.or_eq_true, Bool.and_eq_true, decide_eq_true_eq]
    exact or_assoc
  constructor
  · constructor
    · intro hmem
      rw [computeBirdState_notes, mem_sortByStart, mem_generatedInstances] at hmem
      rcases hmem with ⟨o', ho', m', hm', hmi⟩
      rcases mem_measureInstances.mp hmi with ⟨hact', n', hn', hq', heq⟩
      obtain ⟨hnn, hii, hmm⟩ := startTime_mkInstance_inj hbpm hm hm' heq
      subst hnn
      subst hmm
      have hoo : o' = o := by
        have : (o' : ℤ) = (o : ℤ) := by omega
        exact_mod_cast this
      subst hoo
      exact ⟨hact', hq_iff.mp hq'⟩
    · rintro ⟨hact, hcond⟩
      rw [computeBirdState_notes, mem_sortByStart, mem_generatedInstances]
      exact ⟨o, ho, measure, hm,
        mem_measureInstances.mpr ⟨hact, n, hn, hq_iff.mpr hcond, rfl⟩⟩
  · intro hnd
    have hnodup : (computeBirdState cfg now).notes.Nodup := by
      rw [computeBirdState_notes]
      exact ((sortByStart_perm _).nodup_iff).mpr (nodup_generatedInstances hbpm hnd)
    exact List.nodup_iff_count_le_one.mp hnodup _

/-- C2: the scan visits exactly the current loop iteration
`⌊now / loopLength⌋` when `currentLoopTime + lookahead ≤ loopLength`,
exactly the current and next iterations when it exceeds `loopLength`,
and every emitted instance arises from a visited iteration, however
large `now` is. -/
theorem c2_scanned_iterations (cfg : BirdConfig) (now : ℚ) (hbpm : 0 < cfg.bpm) :
    (currentLoopTime cfg.bpm now + effLookahead cfg ≤ getLoopLengthSeconds cfg.bpm →
      scannedIterations cfg.bpm (effLookahead cfg) now
        = [currentLoopIteration cfg.bpm now]) ∧
    (getLoopLengthSeconds cfg.bpm < currentLoopTime cfg.bpm now + effLookahead cfg →
      scannedIterations cfg.bpm (effLookahead cfg) now
        = [currentLoopIteration cfg.bpm now, currentLoopIteration cfg.bpm now + 1]) ∧
    (∀ inst ∈ (computeBirdState cfg now).notes,
      ∃ iter ∈ scannedIterations cfg.bpm (effLookahead cfg) now, ∃ measure < 16,
        ∃ n ∈ cfg.notes, inst = mkInstance cfg.bpm iter measure n) := by
  refine ⟨?_, ?_, ?_⟩
  · intro h
    have h1 : loopsToCheck cfg.bpm (effLookahead cfg) now = 1 := by
      rw [loopsToCheck, if_neg (not_lt.mpr h)]
    rw [scannedIterations, h1]
    simp [List.range_succ]
  · intro h
    have h2 : loopsToCheck cfg.bpm (effLookahead cfg) now = 2 := by
      rw [loopsToCheck, if_pos h]
    rw [scannedIterations, h2]
    simp [List.range_succ]
  · intro inst hmem
    rw [computeBirdState_notes, mem_sortByStart, mem_generatedInstances] at hmem
    rcases hmem with ⟨o, ho, m, hm, hmi⟩
    rcases mem_measureInstances.mp hmi with ⟨hact, n, hn, hq, heq⟩
    refine ⟨currentLoopIteration cfg.bpm now + o, ?_, m, hm, n, hn, heq⟩
    rw [scannedIterations, List.mem_map]
    exact ⟨o, List.mem_range.mpr ho, rfl⟩

unseal Rat.add Rat.sub Rat.mul Rat.inv in
/-- C3 (counterexample): the clock contract admits negative values, and
at `now = -1` the validated configuration `negClockConfig` publishes
`currentBeat = -1`, `currentMeasure = -1` and `beatInMeasure = -1`, all
outside the ranges the claim asserts. -/
theorem c3_counterexample :
    validateBirdConfig negClockConfig = none ∧
    (computeBirdState negClockConfig (-1)).currentBeat = -1 ∧
    (computeBirdState negClockConfig (-1)).currentMeasure = -1 ∧
    (computeBirdState negClockConfig (-1)).beatInMeasure = -1 ∧
    ¬(0 ≤ (computeBirdState negClockConfig (-1)).currentBeat ∧
      0 ≤ (computeBirdState negClockConfig (-1)).currentMeasure ∧
      0 ≤ (computeBirdState negClockConfig (-1)).beatInMeasure) := by
  refine ⟨rfl, ?_, ?_, ?_, ?_⟩ <;> decide

/-- C3 (amended): for every validated configuration and every
non-negative clock value, the published snapshot satisfies
`currentMeasure ∈ [0, 15]`, `beatInMeasure ∈ [0, 4)` and
`currentBeat ∈ [0, 64)`. -/
theorem c3_snapshot_ranges (cfg : BirdConfig) (now : ℚ) (hbpm : 0 < cfg.bpm)
    (hnow : 0 ≤ now) :
    (0 ≤ (computeBirdState cfg now).currentMeasure ∧
      (computeBirdState cfg now).currentMeasure ≤ 15) ∧
    (0 ≤ (computeBirdState cfg now).beatInMeasure ∧
      (computeBirdState cfg now).beatInMeasure < 4) ∧
    (0 ≤ (computeBirdState cfg now).currentBeat ∧
      (computeBirdState cfg now).currentBeat < 64) := by
  have hraw : 0 ≤ now * (cfg.bpm / 60) :=
    mul_nonneg hnow (div_nonneg hbpm.le (by norm_num))
  have hcb0 : 0 ≤ jsRem (now * (cfg.bpm / 60)) 64 := jsRem_nonneg hraw (by norm_num)
  have hcb64 : jsRem (now * (cfg.bpm / 60)) 64 < 64 := jsRem_lt hraw (by norm_num)
  have hbim0 : 0 ≤ jsRem (jsRem (now * (cfg.bpm / 60)) 64) 4 :=
    jsRem_nonneg hcb0 (by norm_num)
  have hbim4 : jsRem (jsRem (now * (cfg.bpm / 60)) 64) 4 < 4 :=
    jsRem_lt hcb0 (by norm_num)
  refine ⟨⟨?_, ?_⟩, ⟨?_, ?_⟩, ?_, ?_⟩
  · rw [computeBirdState, resolveState_currentMeasure]
    exact Int.floor_nonneg.mpr (div_nonneg hcb0 (by norm_num))
  · rw [computeBirdState, resolveState_currentMeasure]
    have h16 : ⌊jsRem (now * (cfg.bpm / 60)) 64 / 4⌋ < 16 := by
      apply Int.floor_lt.mpr
      push_cast
      linarith
    omega
  · rw [computeBirdState, resolveState_beatInMeasure]
    exact Int.floor_nonneg.mpr hbim0
  · rw [computeBirdState, resolveState_beatInMeasure]
    apply Int.floor_lt.mpr
    push_cast
    linarith
  · rw [computeBirdState, resolveState_currentBeat]
    exact hcb0
  · rw [computeBirdState, resolveState_currentBeat]
    exact hcb64

unseal Rat.add Rat.sub Rat.mul Rat.inv in
/-- C4 (counterexample): the spec's beat-to-measure formulas disagree
with the published snapshot: at the positive clock value `1/8` the code
floors `beatInMeasure` (`0` instead of the fractional `1/4`), and at
the negative clock value `-1/8` both fields diverge (`-1` against the
formulas' `15` and `15/4`). -/
theorem c4_counterexample :
    validateBirdConfig demoConfig = none ∧
    (computeBirdState demoConfig (1 / 8)).beatInMeasure = 0 ∧
    specBeatInMeasure demoConfig.bpm (1 / 8) = 1 / 4 ∧
    (computeBirdState demoConfig (-1 / 8)).currentMeasure = -1 ∧
    specCurrentMeasure demoConfig.bpm (-1 / 8) = 15 ∧
    (computeBirdState demoConfig (-1 / 8)).beatInMeasure = -1 ∧
    specBeatInMeasure demoConfig.bpm (-1 / 8) = 15 / 4 := by
  refine ⟨rfl, ?_, ?_, ?_, ?_, ?_, ?_⟩ <;> decide

/-- C4 (amended): for every validated configuration and every
non-negative clock value, with `beat = (now × bpm/60) mod 64`, the
snapshot's `currentMeasure` equals `⌊beat / 4⌋ mod 16` and its
`beatInMeasure` equals `⌊beat mod 4⌋`, the floor of the fractional beat
position within the measure. -/
theorem c4_beat_to_measure (cfg : BirdConfig) (now : ℚ) (hbpm : 0 < cfg.bpm)
    (hnow : 0 ≤ now) :
    (computeBirdState cfg now).currentMeasure = specCurrentMeasure cfg.bpm now ∧
    (computeBirdState cfg now).beatInMeasure = ⌊specBeatInMeasure cfg.bpm now⌋ := by
  have hraw : 0 ≤ now * (cfg.bpm / 60) :=
    mul_nonneg hnow (div_nonneg hbpm.le (by norm_num))
  have hdiv : 0 ≤ now * (cfg.bpm / 60) / 64 := div_nonneg hraw (by norm_num)
  have hcb0 : 0 ≤ jsRem (now * (cfg.bpm / 60)) 64 := jsRem_nonneg hraw (by norm_num)
  have hcb64 : jsRem (now * (cfg.bpm / 60)) 64 < 64 := jsRem_lt hraw (by norm_num)
  have e1 : jsRem (now * (cfg.bpm / 60)) 64 = ratMod (now * (cfg.bpm / 60)) 64 :=
    jsRem_eq_ratMod hdiv
  constructor
  · rw [computeBirdState, resolveState_currentMeasure, e1, specCurrentMeasure]
    have hx0 : 0 ≤ ⌊ratMod (now * (cfg.bpm / 60)) 64 / 4⌋ :=
      Int.floor_nonneg.mpr (div_nonneg (e1 ▸ hcb0) (by norm_num))
    have hx16 : ⌊ratMod (now * (cfg.bpm / 60)) 64 / 4⌋ < 16 := by
      apply Int.floor_lt.mpr
      push_cast
      have := e1 ▸ hcb64
      linarith
    omega
  · rw [computeBirdState, resolveState_beatInMeasure, e1, specBeatInMeasure]
    congr 1
    exact jsRem_eq_ratMod (div_nonneg (e1 ▸ hcb0) (by norm_num))

unseal Rat.add Rat.sub Rat.mul Rat.inv in
/-- C5 (counterexample): in `tieConfig` the note listed second starts
at beat 4, so its measure-0 occurrence coincides in time with the first
note's measure-1 occurrence; at `now = 0` the published list holds, at
the tied start time 4000 ms, the second note before the first — the
stable sort preserves generation order (measure-major), not input note
order. -/
theorem c5_counterexample :
    validateBirdConfig tieConfig = none ∧
    tieConfig.notes = [tieNoteB, tieNoteA] ∧
    (computeBirdState tieConfig 0).notes.map (fun i => (i.id, i.startTime))
      = [("b", 0), ("a", 4000), ("b", 4000), ("a", 8000), ("b", 8000)] ∧
    ((computeBirdState tieConfig 0).notes.map (fun i => i.note))[1]? = some tieNoteA ∧
    ((computeBirdState tieConfig 0).notes.map (fun i => i.note))[2]? = some tieNoteB := by
  refine ⟨rfl, rfl, ?_, ?_, ?_⟩ <;> decide

/-- C5 (amended): in every published snapshot the instance list is
non-decreasing by absolute start time, and instances with equal start
time appear in generation order — loop iteration, then measure, then
input note order (which coincides with input note order whenever the
tied instances come from the same iteration and measure). -/
theorem c5_sorted_stable (cfg : BirdConfig) (now : ℚ) :
    (computeBirdState cfg now).notes.Pairwise
        (fun a b => a.startTime ≤ b.startTime) ∧
    ∀ t : ℚ, (computeBirdState cfg now).notes.filter (fun a => decide (a.startTime = t))
        = (generatedInstances cfg.bpm cfg.notes cfg.arrangement
            (effLookahead cfg) (effRetention cfg) now).filter
            (fun a => decide (a.startTime = t)) := by
  constructor
  · rw [computeBirdState_notes]
    exact sorted_sortByStart _
  · intro t
    rw [computeBirdState_notes, filter_sortByStart]

/-- C6: the three literal validation scenarios fail with the documented
fixed messages — non-positive bpm, empty note id (naming note index 0),
and an arrangement that does not have exactly 16 elements; each is the
first violation in the documented field order. -/
theorem c6_validation_literals :
    validateBirdConfig badBpmConfig = some "BPM must be a positive number" ∧
    validateBirdConfig emptyIdConfig = some "Note 0: id must be a non-empty string" ∧
    validateBirdConfig shortArrangementConfig
      = some "Arrangement must have exactly 16 elements (one per measure)" :=
  ⟨rfl, rfl, rfl⟩

/-- C7: for every invalid configuration, `createBird` raises the
validation error synchronously with an empty effect trace — no signal
is created, no timer is scheduled, no cell is written, and no session
value is produced. -/
theorem c7_invalid_no_session (cfg : BirdConfig) (now0 : ℚ) (e : String)
    (h : validateBirdConfig cfg = some e) :
    createBird cfg now0 = ([], Except.error e) := by
  rw [createBird, h]

/-- Witness for C7 at the literal bad configuration `{bpm: 0, notes: []}`. -/
theorem c7_invalid_no_session_witness :
    validateBirdConfig badBpmConfig = some "BPM must be a positive number" ∧
    createBird badBpmConfig 0 = ([], Except.error "BPM must be a positive number") :=
  ⟨rfl, c7_invalid_no_session badBpmConfig 0 "BPM must be a positive number" rfl⟩

theorem runSession_inactive (cfg : BirdConfig) (s : BirdSession)
    (h : s.timerActive = false) (evs : List SessionEvent) :
    runSession cfg s evs = s := by
  induction evs generalizing s with
  | nil => rfl
  | cons e evs ih =>
    have hstep : stepSession cfg s e = s := by
      cases e with
      | tick t => simp [stepSession, h]
      | disposeCall =>
        cases s
        simp only [stepSession]
        simp_all
    rw [runSession, List.foldl_cons, hstep]
    exact ih s h

/-- C8: after `dispose` runs `clearInterval`, no later event sequence
changes the session — the timer stays cancelled so ticks never write
again, and the cell keeps the snapshot last published before disposal. -/
theorem c8_dispose_stops_writes (cfg : BirdConfig) (s : BirdSession)
    (evs : List SessionEvent) :
    runSession cfg (stepSession cfg s SessionEvent.disposeCall) evs
      = { cell := s.cell, timerActive := false } := by
  have h1 : stepSession cfg s SessionEvent.disposeCall
      = { cell := s.cell, timerActive := false } := rfl
  rw [h1]
  exact runSession_inactive cfg _ rfl evs

theorem runSession_ticks_last (cfg : BirdConfig) (s : BirdSession)
    (h : s.timerActive = true) (ts : List ℚ) (t : ℚ) :
    runSession cfg s ((ts ++ [t]).map SessionEvent.tick)
      = { cell := computeBirdState cfg t, timerActive := true } := by
  induction ts generalizing s with
  | nil =>
    simp [runSession, stepSession, h]
  | cons t0 ts ih =>
    have hstep : stepSession cfg s (SessionEvent.tick t0)
        = { cell := computeBirdState cfg t0, timerActive := true } := by
      simp [stepSession, h]
    rw [List.cons_append, List.map_cons, runSession, List.foldl_cons, hstep]
    exact ih _ rfl

/-- C9: the resolver is deterministic and stateless — a session's cell
after any tick history depends only on the configuration and the last
tick's clock value, so two sessions with identical configurations and
the same injected clock report identical snapshots at every shared
clock value, whatever their initial clock readings and earlier tick
histories were. -/
theorem c9_deterministic_stateless (cfg : BirdConfig) (t0 t0' t : ℚ)
    (ts ts' : List ℚ) :
    (runSession cfg { cell := computeBirdState cfg t0, timerActive := true }
        ((ts ++ [t]).map SessionEvent.tick)).cell
      = computeBirdState cfg t ∧
    (runSession cfg { cell := computeBirdState cfg t0, timerActive := true }
        ((ts ++ [t]).map SessionEvent.tick)).cell
      = (runSession cfg { cell := computeBirdState cfg t0', timerActive := true }
          ((ts' ++ [t]).map SessionEvent.tick)).cell := by
  rw [runSession_ticks_last cfg _ rfl, runSession_ticks_last cfg _ rfl]
  exact ⟨rfl, rfl⟩

/-- C10: a configuration that sets `retentionTime` to `0` — which the
validator accepts — resolves exactly as if `retentionTime` were the
default `0.5`, because the defaulting expression
`config.retentionTime || 0.5` tests truthiness and `0` is falsy. -/
theorem c10_retention_zero_defaults (cfg : BirdConfig) (now : ℚ)
    (h : cfg.retentionTime = some 0) :
    validateBirdConfig cfg
        = validateBirdConfig { cfg with retentionTime := some (1 / 2) } ∧
    computeBirdState cfg now
        = computeBirdState { cfg with retentionTime := some (1 / 2) } now := by
  obtain ⟨bpm, notes, arr, ui, la, rt⟩ := cfg
  simp only at h
  subst h
  constructor
  · have htail : validateBirdConfig.validateTail ⟨bpm, notes, arr, ui, la, some 0⟩
        = validateBirdConfig.validateTail ⟨bpm, notes, arr, ui, la, some (1 / 2)⟩ := by
      norm_num [validateBirdConfig.validateTail]
    rw [validateBirdConfig, validateBirdConfig, htail]
  · have hr : jsOrDefault (some (0 : ℚ)) (1 / 2) = jsOrDefault (some (1 / 2 : ℚ)) (1 / 2) := by
      have h12 : ((1 / 2 : ℚ) = 0) ↔ False := by norm_num
      simp [jsOrDefault, h12]
    simp only [computeBirdState, effLookahead, effRetention, jsOrDefault] at hr ⊢
    rw [hr]

unseal Rat.add Rat.sub Rat.mul Rat.inv in
/-- Witness for C10: the retention-zero configuration validates, its
snapshot at clock value `3/4` equals the snapshot with the default
retention `0.5`, and the note that ended `0.5` seconds earlier is still
counted as recently played (one such occurrence) instead of none. -/
theorem c10_retention_zero_defaults_witness :
    retentionZeroConfig.retentionTime = some 0 ∧
    (validateBirdConfig retentionZeroConfig
        = validateBirdConfig { retentionZeroConfig with retentionTime := some (1 / 2) } ∧
      computeBirdState retentionZeroConfig (3 / 4)
        = computeBirdState { retentionZeroConfig with retentionTime := some (1 / 2) } (3 / 4)) ∧
    validateBirdConfig retentionZeroConfig = none ∧
    (computeBirdState retentionZeroConfig (3 / 4)).recentlyPlayedNotesCount = 1 :=
  ⟨rfl, c10_retention_zero_defaults retentionZeroConfig (3 / 4) rfl, by decide, by decide⟩

unseal Rat.add Rat.sub Rat.mul Rat.inv in
/-- Witness for C1: in the demo configuration at clock value 0 the
demo note's occurrence in measure 0 of the current iteration is in the
published list (it is currently playing and upcoming). -/
theorem c1_unified_list_witness :
    0 < demoConfig.bpm ∧
    0 < loopsToCheck demoConfig.bpm (effLookahead demoConfig) 0 ∧
    (0 : ℕ) < 16 ∧ demoNote ∈ demoConfig.notes ∧
    mkInstance demoConfig.bpm (currentLoopIteration demoConfig.bpm 0 + (0 : ℕ)) 0 demoNote
      ∈ (computeBirdState demoConfig 0).notes :=
  ⟨by decide, by decide, by decide, by decide,
    ((c1_unified_list demoConfig 0 (by decide) 0 0 (by decide) (by decide) demoNote
        (by decide)).1).mpr
      ⟨by decide, Or.inl ⟨by decide, by decide⟩⟩⟩

unseal Rat.add Rat.sub Rat.mul Rat.inv in
/-- Witness for C2: in the demo configuration at clock value 0 the
lookahead window stays inside the loop, and the scan visits exactly the
current iteration. -/
theorem c2_scanned_iterations_witness :
    0 < demoConfig.bpm ∧
    currentLoopTime demoConfig.bpm 0 + effLookahead demoConfig
      ≤ getLoopLengthSeconds demoConfig.bpm ∧
    scannedIterations demoConfig.bpm (effLookahead demoConfig) 0
      = [currentLoopIteration demoConfig.bpm 0] :=
  ⟨by decide, by decide, (c2_scanned_iterations demoConfig 0 (by decide)).1 (by decide)⟩

unseal Rat.add Rat.sub Rat.mul Rat.inv in
/-- Witness for C3 (amended) at the demo configuration and clock value 1. -/
theorem c3_snapshot_ranges_witness :
    0 < demoConfig.bpm ∧ (0 : ℚ) ≤ 1 ∧
    ((0 ≤ (computeBirdState demoConfig 1).currentMeasure ∧
        (computeBirdState demoConfig 1).currentMeasure ≤ 15) ∧
      (0 ≤ (computeBirdState demoConfig 1).beatInMeasure ∧
        (computeBirdState demoConfig 1).beatInMeasure < 4) ∧
      (0 ≤ (computeBirdState demoConfig 1).currentBeat ∧
        (computeBirdState demoConfig 1).currentBeat < 64)) :=
  ⟨by decide, by decide, c3_snapshot_ranges demoConfig 1 (by decide) (by decide)⟩

unseal Rat.add Rat.sub Rat.mul Rat.inv in
/-- Witness for C4 (amended) at the demo configuration and clock value `1/8`. -/
theorem c4_beat_to_measure_witness :
    0 < demoConfig.bpm ∧ (0 : ℚ) ≤ 1 / 8 ∧
    ((computeBirdState demoConfig (1 / 8)).currentMeasure
        = specCurrentMeasure demoConfig.bpm (1 / 8) ∧
      (computeBirdState demoConfig (1 / 8)).beatInMeasure
        = ⌊specBeatInMeasure demoConfig.bpm (1 / 8)⌋) :=
  ⟨by decide, by decide, c4_beat_to_measure demoConfig (1 / 8) (by decide) (by decide)⟩

end ToneBird
